import Mathlib

/-!
Shallow embedding of `yannmh/flask-examples`.

Two source files are modelled:

* `src/test_manifest_sync.py` — the method `ManifestSyncTest._sync_manifest`,
  which classifies the output of one `git status --porcelain` query against a
  JSON manifest under a strategy string, producing a result dictionary
  `{status, strategy, changes: {added, modified, deleted, conflicts}}`.
* `src/api_example.py` — the in-memory todo CRUD handlers `get_todo`,
  `create_todo`, `update_todo`, `delete_todo` over the module-level list
  `todos`.

Python strings are modelled as Lean `String` (a structure over `List Char`),
with explicit helpers for the Python slicing / membership / strip operations
used by the source, so that all definitions evaluate by kernel reduction.
-/

/-- Python `s[:n]` (character-based slice). -/
def pyTake (s : String) (n : Nat) : String := ⟨s.data.take n⟩

/-- Python `s[n:]` (character-based slice). -/
def pyDrop (s : String) (n : Nat) : String := ⟨s.data.drop n⟩

/-- Python `s.strip()` restricted to ASCII whitespace, which is all that can
occur in a two-character porcelain status code. -/
def pyStrip (s : String) : String :=
  ⟨((s.data.dropWhile Char.isWhitespace).reverse.dropWhile Char.isWhitespace).reverse⟩

/-- Python `c in s` for a single-character needle `c`. -/
def pyInChar (c : Char) (s : String) : Bool := s.data.contains c

/-- Python `s.endswith(suffix)`. -/
def pyEndsWith (s suffix : String) : Bool := suffix.data.isSuffixOf s.data

/-- Result of `subprocess.run(['git', ...], capture_output=True, text=True,
check=False)` as consumed by `_sync_manifest`: `stdoutLines` is
`stdout.splitlines()`; `returncode` is carried because `check=False` never
raises, but `_sync_manifest` reads only `stdout`. -/
structure GitResult where
  stdoutLines : List String
  returncode : Int
deriving DecidableEq, Repr

/-- One value of the manifest's `files` mapping: `{"hash": ..., "size": ...}`. -/
structure ManifestEntry where
  hash : String
  size : Nat
deriving DecidableEq, Repr

/-- The parsed `manifest.json` document: `{version, files, dependencies}`.
`files` and `dependencies` are Python dicts, i.e. insertion-ordered maps with
unique keys, modelled as association lists. -/
structure Manifest where
  version : String
  files : List (String × ManifestEntry)
  dependencies : List (String × String)
deriving DecidableEq, Repr

/-- The `changes` sub-dictionary of the sync result. -/
structure ChangeSet where
  added : List String
  modified : List String
  deleted : List String
  conflicts : List String
deriving DecidableEq, Repr

/-- The dictionary returned by `_sync_manifest`. -/
structure SyncResult where
  status : String
  strategy : String
  changes : ChangeSet
deriving DecidableEq, Repr

/-- The initial value of `result['changes']`. -/
def emptyChangeSet : ChangeSet := ⟨[], [], [], []⟩

/-- Python dict assignment `d[k] = v`: updates the value in place when the key
exists (keeping insertion order), appends the pair otherwise. -/
def dictInsert (d : List (String × String)) (k v : String) : List (String × String) :=
  if d.any (fun p => p.1 = k) then
    d.map (fun p => if p.1 = k then (k, v) else p)
  else
    d ++ [(k, v)]

/-- One iteration of the status-parsing loop of `_sync_manifest`:
`if line: status = line[:2]; filename = line[3:]; git_files[filename] = status.strip()`. -/
def parseStep (d : List (String × String)) (line : String) : List (String × String) :=
  if line ≠ "" then dictInsert d (pyDrop line 3) (pyStrip (pyTake line 2)) else d

/-- The `git_files` dict built by `_sync_manifest` from
`git_status.stdout.splitlines()`. -/
def parseGitStatus (lines : List String) : List (String × String) :=
  lines.foldl parseStep []

/-- One iteration of the `merge` loop of `_sync_manifest`, with its
`if 'M' in ... elif 'A' in ... elif 'D' in ... elif '??' == ...` chain. -/
def mergeStep (cs : ChangeSet) (kv : String × String) : ChangeSet :=
  if pyInChar 'M' kv.2 then { cs with modified := cs.modified ++ [kv.1] }
  else if pyInChar 'A' kv.2 then { cs with added := cs.added ++ [kv.1] }
  else if pyInChar 'D' kv.2 then { cs with deleted := cs.deleted ++ [kv.1] }
  else if kv.2 = "??" then { cs with added := cs.added ++ [kv.1] }
  else cs

/-- Python `file_path in git_files`: key membership in the `git_files` dict. -/
def inGitFiles (gitFiles : List (String × String)) (p : String) : Bool :=
  (gitFiles.map Prod.fst).contains p

/-- One iteration of the `overwrite` loop of `_sync_manifest`:
`if file_path in git_files: modified else: added` over the manifest's files. -/
def overwriteStep (gitFiles : List (String × String)) (cs : ChangeSet)
    (entry : String × ManifestEntry) : ChangeSet :=
  if inGitFiles gitFiles entry.1 then
    { cs with modified := cs.modified ++ [entry.1] }
  else
    { cs with added := cs.added ++ [entry.1] }

/-- One iteration of the `selective` loop of `_sync_manifest`:
`if file_path.endswith('.py'): modified`. -/
def selectiveStep (cs : ChangeSet) (kv : String × String) : ChangeSet :=
  if pyEndsWith kv.1 ".py" then { cs with modified := cs.modified ++ [kv.1] } else cs

/-- The strategy dispatch of `_sync_manifest` (the `if strategy == 'merge'
... elif ... elif ...` block); an unrecognized strategy leaves the change set
untouched. -/
def classifyChanges (currentManifest : Manifest) (gitFiles : List (String × String))
    (strategy : String) : ChangeSet :=
  if strategy = "merge" then
    gitFiles.foldl mergeStep emptyChangeSet
  else if strategy = "overwrite" then
    currentManifest.files.foldl (overwriteStep gitFiles) emptyChangeSet
  else if strategy = "selective" then
    gitFiles.foldl selectiveStep emptyChangeSet
  else
    emptyChangeSet

/-- `ManifestSyncTest._sync_manifest(strategy)`. The manifest read from disk
and the git status result are the two external inputs of the pass. The second
component of the returned pair counts the status queries issued during the
pass: the source calls `self._run_git(['status', '--porcelain'])` exactly
once, unconditionally, before the strategy dispatch. -/
def syncManifest (currentManifest : Manifest) (gitStatus : GitResult)
    (strategy : String) : SyncResult × Nat :=
  let gitFiles := parseGitStatus gitStatus.stdoutLines
  ({ status := "success"
     strategy := strategy
     changes := classifyChanges currentManifest gitFiles strategy }, 1)

/-! ### `src/api_example.py` -/

/-- One element of the module-level `todos` list. -/
structure Todo where
  id : Nat
  title : String
  completed : Bool
deriving DecidableEq, Repr

/-- The initial in-memory store. -/
def initialTodos : List Todo :=
  [⟨1, "Learn Flask", false⟩, ⟨2, "Build an API", false⟩]

/-- The lookup `next((t for t in todos if t['id'] == todo_id), None)` shared by
`get_todo` and `update_todo`. -/
def findTodo (todos : List Todo) (todoId : Nat) : Option Todo :=
  todos.find? (fun t => t.id == todoId)

/-- `create_todo` after validation: builds `{"id": len(todos) + 1, ...}` and
appends it; returns the new store and the created todo. -/
def createTodo (todos : List Todo) (title : String) (completed : Bool) :
    List Todo × Todo :=
  let newTodo : Todo := ⟨todos.length + 1, title, completed⟩
  (todos ++ [newTodo], newTodo)

/-- `update_todo`: mutates the first todo whose id matches, applying
`data.get('title', todo['title'])` and `data.get('completed', ...)`; the store
is unchanged when no todo matches (the handler returns 404). -/
def updateTodo (todos : List Todo) (todoId : Nat) (title? : Option String)
    (completed? : Option Bool) : List Todo :=
  match todos with
  | [] => []
  | t :: ts =>
    if t.id == todoId then
      { t with title := title?.getD t.title
               completed := completed?.getD t.completed } :: ts
    else
      t :: updateTodo ts todoId title? completed?

/-- `delete_todo`: `todos = [t for t in todos if t['id'] != todo_id]`. -/
def deleteTodo (todos : List Todo) (todoId : Nat) : List Todo :=
  todos.filter (fun t => t.id ≠ todoId)

/-- A concrete manifest used by closed counterexamples: the
`initial_manifest` of the test fixture, truncated to two files. -/
def exampleManifest : Manifest :=
  { version := "1.0.0"
    files := [("src/main.py", ⟨"abc123", 100⟩), ("docs/README.md", ⟨"jkl012", 300⟩)]
    dependencies := [("flask", "2.0.0")] }

/-! ### Helper lemmas: per-step field behaviour -/

/-- The status codes routed to `modified` by the `merge` branch. -/
def mergeModifiedCode (s : String) : Bool := pyInChar 'M' s

/-- The status codes routed to `added` by the `merge` branch (the second and
fourth arms of its `elif` chain). -/
def mergeAddedCode (s : String) : Bool :=
  !pyInChar 'M' s && (pyInChar 'A' s || (!pyInChar 'A' s && !pyInChar 'D' s && s == "??"))

/-- The status codes routed to `deleted` by the `merge` branch. -/
def mergeDeletedCode (s : String) : Bool :=
  !pyInChar 'M' s && !pyInChar 'A' s && pyInChar 'D' s

theorem mergeStep_modified (cs : ChangeSet) (kv : String × String) :
    (mergeStep cs kv).modified
      = if mergeModifiedCode kv.2 then cs.modified ++ [kv.1] else cs.modified := by
  unfold mergeStep mergeModifiedCode
  split_ifs <;> simp_all

theorem mergeStep_added (cs : ChangeSet) (kv : String × String) :
    (mergeStep cs kv).added
      = if mergeAddedCode kv.2 then cs.added ++ [kv.1] else cs.added := by
  unfold mergeStep mergeAddedCode
  split_ifs <;> simp_all

theorem mergeStep_deleted (cs : ChangeSet) (kv : String × String) :
    (mergeStep cs kv).deleted
      = if mergeDeletedCode kv.2 then cs.deleted ++ [kv.1] else cs.deleted := by
  unfold mergeStep mergeDeletedCode
  split_ifs <;> simp_all

theorem mergeStep_conflicts (cs : ChangeSet) (kv : String × String) :
    (mergeStep cs kv).conflicts = cs.conflicts := by
  unfold mergeStep
  split_ifs <;> rfl

theorem overwriteStep_modified (gf : List (String × String)) (cs : ChangeSet)
    (e : String × ManifestEntry) :
    (overwriteStep gf cs e).modified
      = if inGitFiles gf e.1 then cs.modified ++ [e.1] else cs.modified := by
  unfold overwriteStep
  split_ifs <;> rfl

theorem overwriteStep_added (gf : List (String × String)) (cs : ChangeSet)
    (e : String × ManifestEntry) :
    (overwriteStep gf cs e).added
      = if inGitFiles gf e.1 then cs.added else cs.added ++ [e.1] := by
  unfold overwriteStep
  split_ifs <;> rfl

theorem overwriteStep_deleted (gf : List (String × String)) (cs : ChangeSet)
    (e : String × ManifestEntry) :
    (overwriteStep gf cs e).deleted = cs.deleted := by
  unfold overwriteStep
  split_ifs <;> rfl

theorem overwriteStep_conflicts (gf : List (String × String)) (cs : ChangeSet)
    (e : String × ManifestEntry) :
    (overwriteStep gf cs e).conflicts = cs.conflicts := by
  unfold overwriteStep
  split_ifs <;> rfl

theorem selectiveStep_modified (cs : ChangeSet) (kv : String × String) :
    (selectiveStep cs kv).modified
      = if pyEndsWith kv.1 ".py" then cs.modified ++ [kv.1] else cs.modified := by
  unfold selectiveStep
  split_ifs <;> rfl

theorem selectiveStep_added (cs : ChangeSet) (kv : String × String) :
    (selectiveStep cs kv).added = cs.added := by
  unfold selectiveStep
  split_ifs <;> rfl

theorem selectiveStep_deleted (cs : ChangeSet) (kv : String × String) :
    (selectiveStep cs kv).deleted = cs.deleted := by
  unfold selectiveStep
  split_ifs <;> rfl

theorem selectiveStep_conflicts (cs : ChangeSet) (kv : String × String) :
    (selectiveStep cs kv).conflicts = cs.conflicts := by
  unfold selectiveStep
  split_ifs <;> rfl

/-! ### Helper lemmas: fold characterizations -/

theorem mergeFold_modified : ∀ (l : List (String × String)) (cs : ChangeSet),
    (l.foldl mergeStep cs).modified
      = cs.modified ++ ((l.filter fun kv => mergeModifiedCode kv.2).map Prod.fst) := by
  intro l
  induction l with
  | nil => intro cs; simp
  | cons kv t ih =>
    intro cs
    rw [List.foldl_cons, ih, mergeStep_modified, List.filter_cons]
    by_cases h : mergeModifiedCode kv.2 <;> simp [h]

theorem mergeFold_added : ∀ (l : List (String × String)) (cs : ChangeSet),
    (l.foldl mergeStep cs).added
      = cs.added ++ ((l.filter fun kv => mergeAddedCode kv.2).map Prod.fst) := by
  intro l
  induction l with
  | nil => intro cs; simp
  | cons kv t ih =>
    intro cs
    rw [List.foldl_cons, ih, mergeStep_added, List.filter_cons]
    by_cases h : mergeAddedCode kv.2 <;> simp [h]

theorem mergeFold_deleted : ∀ (l : List (String × String)) (cs : ChangeSet),
    (l.foldl mergeStep cs).deleted
      = cs.deleted ++ ((l.filter fun kv => mergeDeletedCode kv.2).map Prod.fst) := by
  intro l
  induction l with
  | nil => intro cs; simp
  | cons kv t ih =>
    intro cs
    rw [List.foldl_cons, ih, mergeStep_deleted, List.filter_cons]
    by_cases h : mergeDeletedCode kv.2 <;> simp [h]

theorem mergeFold_conflicts : ∀ (l : List (String × String)) (cs : ChangeSet),
    (l.foldl mergeStep cs).conflicts = cs.conflicts := by
  intro l
  induction l with
  | nil => intro cs; rfl
  | cons kv t ih =>
    intro cs
    rw [List.foldl_cons, ih, mergeStep_conflicts]

theorem overwriteFold_modified (gf : List (String × String)) :
    ∀ (l : List (String × ManifestEntry)) (cs : ChangeSet),
    (l.foldl (overwriteStep gf) cs).modified
      = cs.modified
        ++ ((l.filter fun e => inGitFiles gf e.1).map Prod.fst) := by
  intro l
  induction l with
  | nil => intro cs; simp
  | cons e t ih =>
    intro cs
    rw [List.foldl_cons, ih, overwriteStep_modified, List.filter_cons]
    by_cases h : inGitFiles gf e.1 <;> simp [h]

theorem overwriteFold_added (gf : List (String × String)) :
    ∀ (l : List (String × ManifestEntry)) (cs : ChangeSet),
    (l.foldl (overwriteStep gf) cs).added
      = cs.added
        ++ ((l.filter fun e => !inGitFiles gf e.1).map Prod.fst) := by
  intro l
  induction l with
  | nil => intro cs; simp
  | cons e t ih =>
    intro cs
    rw [List.foldl_cons, ih, overwriteStep_added, List.filter_cons]
    by_cases h : inGitFiles gf e.1 <;> simp [h]

theorem overwriteFold_deleted (gf : List (String × String)) :
    ∀ (l : List (String × ManifestEntry)) (cs : ChangeSet),
    (l.foldl (overwriteStep gf) cs).deleted = cs.deleted := by
  intro l
  induction l with
  | nil => intro cs; rfl
  | cons e t ih =>
    intro cs
    rw [List.foldl_cons, ih, overwriteStep_deleted]

theorem overwriteFold_conflicts (gf : List (String × String)) :
    ∀ (l : List (String × ManifestEntry)) (cs : ChangeSet),
    (l.foldl (overwriteStep gf) cs).conflicts = cs.conflicts := by
  intro l
  induction l with
  | nil => intro cs; rfl
  | cons e t ih =>
    intro cs
    rw [List.foldl_cons, ih, overwriteStep_conflicts]

theorem selectiveFold_modified : ∀ (l : List (String × String)) (cs : ChangeSet),
    (l.foldl selectiveStep cs).modified
      = cs.modified ++ ((l.filter fun kv => pyEndsWith kv.1 ".py").map Prod.fst) := by
  intro l
  induction l with
  | nil => intro cs; simp
  | cons kv t ih =>
    intro cs
    rw [List.foldl_cons, ih, selectiveStep_modified, List.filter_cons]
    by_cases h : pyEndsWith kv.1 ".py" <;> simp [h]

theorem selectiveFold_added : ∀ (l : List (String × String)) (cs : ChangeSet),
    (l.foldl selectiveStep cs).added = cs.added := by
  intro l
  induction l with
  | nil => intro cs; rfl
  | cons kv t ih =>
    intro cs
    rw [List.foldl_cons, ih, selectiveStep_added]

theorem selectiveFold_deleted : ∀ (l : List (String × String)) (cs : ChangeSet),
    (l.foldl selectiveStep cs).deleted = cs.deleted := by
  intro l
  induction l with
  | nil => intro cs; rfl
  | cons kv t ih =>
    intro cs
    rw [List.foldl_cons, ih, selectiveStep_deleted]

theorem selectiveFold_conflicts : ∀ (l : List (String × String)) (cs : ChangeSet),
    (l.foldl selectiveStep cs).conflicts = cs.conflicts := by
  intro l
  induction l with
  | nil => intro cs; rfl
  | cons kv t ih =>
    intro cs
    rw [List.foldl_cons, ih, selectiveStep_conflicts]

/-! ### Helper lemmas: dict keys -/

theorem dictInsert_map_fst_pos (d : List (String × String)) (k v : String)
    (h : d.any (fun p => p.1 = k)) :
    (dictInsert d k v).map Prod.fst = d.map Prod.fst := by
  unfold dictInsert
  rw [if_pos h, List.map_map]
  apply List.map_congr_left
  intro p _
  by_cases hp : p.1 = k <;> simp [hp]

theorem dictInsert_map_fst_neg (d : List (String × String)) (k v : String)
    (h : ¬ d.any (fun p => p.1 = k)) :
    (dictInsert d k v).map Prod.fst = d.map Prod.fst ++ [k] := by
  unfold dictInsert
  rw [if_neg h, List.map_append]
  rfl

theorem dictInsert_nodup_keys (d : List (String × String)) (k v : String)
    (h : (d.map Prod.fst).Nodup) : ((dictInsert d k v).map Prod.fst).Nodup := by
  by_cases hmem : d.any (fun p => p.1 = k)
  · rw [dictInsert_map_fst_pos d k v hmem]
    exact h
  · rw [dictInsert_map_fst_neg d k v hmem]
    have hk : k ∉ d.map Prod.fst := by
      intro hk
      apply hmem
      rw [List.any_eq_true]
      obtain ⟨p, hp, hfst⟩ := List.mem_map.mp hk
      exact ⟨p, hp, by simp [hfst]⟩
    simp [List.nodup_append, h, hk]

theorem parseStep_nodup_keys (d : List (String × String)) (line : String)
    (h : (d.map Prod.fst).Nodup) : ((parseStep d line).map Prod.fst).Nodup := by
  unfold parseStep
  split_ifs
  · exact dictInsert_nodup_keys _ _ _ h
  · exact h

theorem parseFold_nodup_keys : ∀ (lines : List String) (d : List (String × String)),
    (d.map Prod.fst).Nodup → ((lines.foldl parseStep d).map Prod.fst).Nodup := by
  intro lines
  induction lines with
  | nil => intro d h; exact h
  | cons line rest ih =>
    intro d h
    rw [List.foldl_cons]
    exact ih _ (parseStep_nodup_keys d line h)

/-- The `git_files` dict has no duplicate keys (it is a Python dict). -/
theorem parseGitStatus_nodup_keys (lines : List String) :
    ((parseGitStatus lines).map Prod.fst).Nodup :=
  parseFold_nodup_keys lines [] (by simp)

/-- In an association list with no duplicate keys, two entries with the same
key are the same entry. -/
theorem eq_of_mem_of_nodup_keys {α β : Type} {l : List (α × β)}
    (h : (l.map Prod.fst).Nodup) {kv₁ kv₂ : α × β}
    (h1 : kv₁ ∈ l) (h2 : kv₂ ∈ l) (hk : kv₁.1 = kv₂.1) : kv₁ = kv₂ := by
  induction l with
  | nil => cases h1
  | cons a t ih =>
    rw [List.map_cons, List.nodup_cons] at h
    rcases List.mem_cons.mp h1 with rfl | h1t
    · rcases List.mem_cons.mp h2 with rfl | h2t
      · rfl
      · exact absurd (hk ▸ List.mem_map_of_mem Prod.fst h2t) h.1
    · rcases List.mem_cons.mp h2 with rfl | h2t
      · exact absurd (hk ▸ List.mem_map_of_mem Prod.fst h1t) h.1
      · exact ih h.2 h1t h2t

/-- Membership in a key projection of a filtered association list. -/
theorem mem_map_fst_filter {α β : Type} {l : List (α × β)} {P : α × β → Bool} {p : α} :
    p ∈ (l.filter P).map Prod.fst ↔ ∃ kv, kv ∈ l ∧ P kv = true ∧ kv.1 = p := by
  simp only [List.mem_map, List.mem_filter]
  constructor
  · rintro ⟨kv, ⟨hmem, hP⟩, hfst⟩
    exact ⟨kv, hmem, hP, hfst⟩
  · rintro ⟨kv, hmem, hP, hfst⟩
    exact ⟨kv, ⟨hmem, hP⟩, hfst⟩

/-- If the unique entry for key `p` fails the filter, `p` is not among the
filtered keys. -/
theorem not_mem_map_fst_filter {l : List (String × String)} {P : String × String → Bool}
    {p v : String} (hnd : (l.map Prod.fst).Nodup) (hmem : (p, v) ∈ l)
    (hP : P (p, v) = false) : p ∉ (l.filter P).map Prod.fst := by
  intro hcon
  obtain ⟨kv, hkv, hPkv, hfst⟩ := mem_map_fst_filter.mp hcon
  have : kv = (p, v) := eq_of_mem_of_nodup_keys hnd hkv hmem (by simpa using hfst)
  rw [this, hP] at hPkv
  cases hPkv

/-- If the unique entry for key `p` passes the filter, `p` occurs exactly once
among the filtered keys. -/
theorem count_map_fst_filter_eq_one {l : List (String × String)}
    {P : String × String → Bool} {p v : String}
    (hnd : (l.map Prod.fst).Nodup) (hmem : (p, v) ∈ l) (hP : P (p, v) = true) :
    ((l.filter P).map Prod.fst).count p = 1 := by
  induction l with
  | nil => cases hmem
  | cons kv t ih =>
    rw [List.map_cons, List.nodup_cons] at hnd
    rcases List.mem_cons.mp hmem with heq | hmemt
    · have hkeep : P kv = true := heq ▸ hP
      rw [List.filter_cons, if_pos hkeep, List.map_cons, List.count_cons]
      have hfst : kv.1 = p := by rw [← heq]
      have hzero : ((t.filter P).map Prod.fst).count p = 0 := by
        rw [List.count_eq_zero]
        intro hcon
        obtain ⟨kv', hkv', _, hfst'⟩ := mem_map_fst_filter.mp hcon
        exact hnd.1 (hfst ▸ hfst' ▸ List.mem_map_of_mem Prod.fst hkv')
      simp [hzero, hfst]
    · have hne : kv.1 ≠ p := by
        intro hcon
        exact hnd.1 (hcon ▸ List.mem_map_of_mem Prod.fst hmemt)
      have hrest : ((t.filter P).map Prod.fst).count p = 1 := ih hnd.2 hmemt
      rw [List.filter_cons]
      by_cases hkeep : P kv = true
      · rw [if_pos hkeep, List.map_cons, List.count_cons]
        simp [hrest, hne]
      · rw [if_neg hkeep]
        exact hrest

/-! ### Helper lemmas: strategy dispatch -/

theorem syncManifest_changes (m : Manifest) (git : GitResult) (strategy : String) :
    (syncManifest m git strategy).1.changes
      = classifyChanges m (parseGitStatus git.stdoutLines) strategy := rfl

theorem classifyChanges_merge (m : Manifest) (gf : List (String × String)) :
    classifyChanges m gf "merge" = gf.foldl mergeStep emptyChangeSet := rfl

theorem classifyChanges_overwrite (m : Manifest) (gf : List (String × String)) :
    classifyChanges m gf "overwrite"
      = m.files.foldl (overwriteStep gf) emptyChangeSet := rfl

theorem classifyChanges_selective (m : Manifest) (gf : List (String × String)) :
    classifyChanges m gf "selective" = gf.foldl selectiveStep emptyChangeSet := rfl

theorem classifyChanges_unknown (m : Manifest) (gf : List (String × String))
    (s : String) (h1 : s ≠ "merge") (h2 : s ≠ "overwrite") (h3 : s ≠ "selective") :
    classifyChanges m gf s = emptyChangeSet := by
  unfold classifyChanges
  rw [if_neg h1, if_neg h2, if_neg h3]

theorem classifyChanges_conflicts_nil (m : Manifest) (gf : List (String × String))
    (s : String) : (classifyChanges m gf s).conflicts = [] := by
  unfold classifyChanges
  split_ifs <;>
    simp [mergeFold_conflicts, overwriteFold_conflicts, selectiveFold_conflicts,
      emptyChangeSet]

/-! ### Helper lemmas: the merge code predicates are mutually exclusive -/

theorem mergeModified_not_added (s : String) :
    mergeModifiedCode s = true → mergeAddedCode s = false := by
  unfold mergeModifiedCode mergeAddedCode
  intro h
  simp [h]

theorem mergeModified_not_deleted (s : String) :
    mergeModifiedCode s = true → mergeDeletedCode s = false := by
  unfold mergeModifiedCode mergeDeletedCode
  intro h
  simp [h]

theorem mergeAdded_not_deleted (s : String) :
    mergeAddedCode s = true → mergeDeletedCode s = false := by
  unfold mergeAddedCode mergeDeletedCode
  intro h
  cases hM : pyInChar 'M' s <;> cases hA : pyInChar 'A' s <;>
    cases hD : pyInChar 'D' s <;> simp_all

/-- Keys selected by mutually exclusive filters are disjoint when the
association list has no duplicate keys. -/
theorem disjoint_map_fst_filter {α β : Type} {l : List (α × β)} {P Q : α × β → Bool}
    (hnd : (l.map Prod.fst).Nodup) (hexc : ∀ kv, P kv = true → Q kv = false) {p : α} :
    p ∈ (l.filter P).map Prod.fst → p ∉ (l.filter Q).map Prod.fst := by
  intro hP hQ
  obtain ⟨kv₁, h1, hp1, hf1⟩ := mem_map_fst_filter.mp hP
  obtain ⟨kv₂, h2, hp2, hf2⟩ := mem_map_fst_filter.mp hQ
  have heq : kv₁ = kv₂ := eq_of_mem_of_nodup_keys hnd h1 h2 (hf1.trans hf2.symm)
  rw [heq] at hp1
  rw [hexc kv₂ hp1] at hp2
  cases hp2

/-! ### Claims -/

/-- Claim C1, counterexample: invoking `_sync_manifest` with the unknown
strategy `"bogus"` does not fail with `UnknownStrategy` — it returns a result
whose status is `"success"` with empty change sets — and the status query to
the version-control collaborator is issued anyway (query count 1, not 0). -/
theorem claim_C1_counterexample :
    (syncManifest exampleManifest { stdoutLines := ["?? foo.txt"], returncode := 0 } "bogus")
      = ({ status := "success", strategy := "bogus",
           changes := { added := [], modified := [], deleted := [], conflicts := [] } }, 1)
    ∧ (syncManifest exampleManifest { stdoutLines := ["?? foo.txt"], returncode := 0 } "bogus").1.status
        ≠ "failure" := by
  decide

/-- Claim C1, amended: `_sync_manifest` performs no strategy validation at
all. For the unrecognized strategy `"bogus"` it still issues the status query
(exactly one, unconditionally, before the strategy dispatch), and it returns a
result with status `"success"`, the strategy echoed back, and all four change
sequences empty. -/
theorem claim_C1_no_strategy_validation (m : Manifest) (git : GitResult) :
    syncManifest m git "bogus"
      = ({ status := "success", strategy := "bogus", changes := emptyChangeSet }, 1) := by
  show ((⟨"success", "bogus",
          classifyChanges m (parseGitStatus git.stdoutLines) "bogus"⟩ : SyncResult), (1 : Nat))
      = ({ status := "success", strategy := "bogus", changes := emptyChangeSet }, 1)
  rw [classifyChanges_unknown m _ "bogus" (by decide) (by decide) (by decide)]

/-- Claim C3, counterexample: when the status query fails (`git status` in a
directory that is not a repository exits with code 128 and empty stdout),
`_sync_manifest` still reports status `"success"`, never `"failure"`. -/
theorem claim_C3_counterexample :
    (syncManifest exampleManifest { stdoutLines := [], returncode := 128 } "merge").1.status
      = "success"
    ∧ (syncManifest exampleManifest { stdoutLines := [], returncode := 128 } "merge").1.status
        ≠ "failure" := by
  decide

/-- Claim C3, amended: `_sync_manifest` indeed returns a result rather than
raising a fault, but the `status` field is the constant `"success"` for every
manifest, every collaborator outcome (any returncode, any stdout) and every
strategy; callers branching on `result.status` can never observe a failure. -/
theorem claim_C3_status_always_success (m : Manifest) (git : GitResult) (strategy : String) :
    (syncManifest m git strategy).1.status = "success" := rfl

/-- Claim C8: reconciling any manifest under the `merge` strategy against a
clean working tree (empty status query output) yields a ChangeSet whose four
sequences are all empty. -/
theorem claim_C8_clean_tree_empty (m : Manifest) (rc : Int) :
    (syncManifest m { stdoutLines := [], returncode := rc } "merge").1.changes
      = { added := [], modified := [], deleted := [], conflicts := [] } := rfl

/-- Claim C9: for every manifest, status input and strategy string, the
`conflicts` sequence of the result is empty — no branch of `_sync_manifest`
ever appends to it. -/
theorem claim_C9_conflicts_always_empty (m : Manifest) (git : GitResult) (strategy : String) :
    (syncManifest m git strategy).1.changes.conflicts = [] := by
  rw [syncManifest_changes]
  exact classifyChanges_conflicts_nil m _ strategy

/-- Claim C10: `create_todo` assigns id `len(todos) + 1`, so after deleting
the todo with id 1 from the initial two-todo store and creating a new todo,
the store holds two distinct todos that share id 2; `get_todo` (`findTodo`)
and `update_todo` then operate only on the first todo with that id. -/
theorem claim_C10_duplicate_todo_id :
    (createTodo (deleteTodo initialTodos 1) "Write tests" false).2.id
        = (deleteTodo initialTodos 1).length + 1
    ∧ (createTodo (deleteTodo initialTodos 1) "Write tests" false).1
        = [⟨2, "Build an API", false⟩, ⟨2, "Write tests", false⟩]
    ∧ (⟨2, "Build an API", false⟩ : Todo) ≠ ⟨2, "Write tests", false⟩
    ∧ (⟨2, "Build an API", false⟩ : Todo).id = (⟨2, "Write tests", false⟩ : Todo).id
    ∧ findTodo (createTodo (deleteTodo initialTodos 1) "Write tests" false).1 2
        = some ⟨2, "Build an API", false⟩
    ∧ updateTodo (createTodo (deleteTodo initialTodos 1) "Write tests" false).1 2
          (some "Updated") none
        = [⟨2, "Updated", false⟩, ⟨2, "Write tests", false⟩] := by
  decide

/-- Claim C5: under the `overwrite` strategy the ChangeSet is computed solely
from the manifest's file set — a path is in `modified` iff it is a manifest
path with a tree-status entry, in `added` iff it is a manifest path without
one, `deleted` and `conflicts` stay empty (so tree-status paths outside the
manifest are never reported); and for a one-entry manifest `a.py` with no
tree-status entry, `added` is exactly `[a.py]`. -/
theorem claim_C5_overwrite_from_manifest (m : Manifest) (git : GitResult) (p : String) :
    (p ∈ (syncManifest m git "overwrite").1.changes.modified
      ↔ p ∈ m.files.map Prod.fst
        ∧ inGitFiles (parseGitStatus git.stdoutLines) p = true)
    ∧ (p ∈ (syncManifest m git "overwrite").1.changes.added
      ↔ p ∈ m.files.map Prod.fst
        ∧ inGitFiles (parseGitStatus git.stdoutLines) p = false)
    ∧ (syncManifest m git "overwrite").1.changes.deleted = []
    ∧ (syncManifest m git "overwrite").1.changes.conflicts = []
    ∧ (syncManifest { version := "1.0.0", files := [("a.py", ⟨"abc123", 100⟩)], dependencies := [] }
        { stdoutLines := [], returncode := 0 } "overwrite").1.changes.added = ["a.py"] := by
  simp only [syncManifest_changes, classifyChanges_overwrite]
  refine ⟨?_, ?_, ?_, ?_, by decide⟩
  · rw [overwriteFold_modified]
    simp only [emptyChangeSet, List.nil_append]
    constructor
    · intro h
      obtain ⟨e, he, hP, hfst⟩ := mem_map_fst_filter.mp h
      exact ⟨hfst ▸ List.mem_map_of_mem Prod.fst he, hfst ▸ hP⟩
    · rintro ⟨hmem, hin⟩
      obtain ⟨e, he, hfst⟩ := List.mem_map.mp hmem
      exact mem_map_fst_filter.mpr ⟨e, he, by rw [hfst]; exact hin, hfst⟩
  · rw [overwriteFold_added]
    simp only [emptyChangeSet, List.nil_append]
    constructor
    · intro h
      obtain ⟨e, he, hP, hfst⟩ := mem_map_fst_filter.mp h
      rw [Bool.not_eq_true'] at hP
      exact ⟨hfst ▸ List.mem_map_of_mem Prod.fst he, hfst ▸ hP⟩
    · rintro ⟨hmem, hin⟩
      obtain ⟨e, he, hfst⟩ := List.mem_map.mp hmem
      refine mem_map_fst_filter.mpr ⟨e, he, ?_, hfst⟩
      rw [Bool.not_eq_true', hfst]
      exact hin
  · rw [overwriteFold_deleted]
    rfl
  · rw [overwriteFold_conflicts]
    rfl

/-- Claim C7, counterexample: under `selective`, the untracked path
`new.py` (status code `??`) is placed in `modified`, not in `added` — entries
passing the suffix filter are not classified according to their status. -/
theorem claim_C7_counterexample :
    (syncManifest exampleManifest { stdoutLines := ["?? new.py"], returncode := 0 } "selective").1.changes
      = { added := [], modified := ["new.py"], deleted := [], conflicts := [] } := by
  decide

/-- Claim C7, amended: under the `selective` strategy the suffix predicate
`.endswith('.py')` is the only criterion — every status entry whose path
matches is placed in `modified` regardless of its status code, and
non-matching paths are dropped silently; `added`, `deleted` and `conflicts`
stay empty. -/
theorem claim_C7_selective_suffix_only (m : Manifest) (git : GitResult) (p : String) :
    (p ∈ (syncManifest m git "selective").1.changes.modified
      ↔ (∃ c, (p, c) ∈ parseGitStatus git.stdoutLines) ∧ pyEndsWith p ".py" = true)
    ∧ (syncManifest m git "selective").1.changes.added = []
    ∧ (syncManifest m git "selective").1.changes.deleted = []
    ∧ (syncManifest m git "selective").1.changes.conflicts = [] := by
  simp only [syncManifest_changes, classifyChanges_selective]
  refine ⟨?_, ?_, ?_, ?_⟩
  · rw [selectiveFold_modified]
    simp only [emptyChangeSet, List.nil_append]
    constructor
    · intro h
      obtain ⟨kv, hkv, hP, hfst⟩ := mem_map_fst_filter.mp h
      refine ⟨⟨kv.2, ?_⟩, hfst ▸ hP⟩
      rw [← hfst, Prod.mk.eta]
      exact hkv
    · rintro ⟨⟨c, hc⟩, hpy⟩
      exact mem_map_fst_filter.mpr ⟨(p, c), hc, hpy, rfl⟩
  · rw [selectiveFold_added]
    rfl
  · rw [selectiveFold_deleted]
    rfl
  · rw [selectiveFold_conflicts]
    rfl

/-- Claim C6: a path whose status code in `git_files` is `MM` is placed by the
`merge` strategy in `modified` exactly once and in no other sequence. -/
theorem claim_C6_MM_modified_once (m : Manifest) (git : GitResult) (p : String)
    (h : (p, "MM") ∈ parseGitStatus git.stdoutLines) :
    (syncManifest m git "merge").1.changes.modified.count p = 1
    ∧ p ∉ (syncManifest m git "merge").1.changes.added
    ∧ p ∉ (syncManifest m git "merge").1.changes.deleted
    ∧ p ∉ (syncManifest m git "merge").1.changes.conflicts := by
  have hnd := parseGitStatus_nodup_keys git.stdoutLines
  simp only [syncManifest_changes, classifyChanges_merge]
  refine ⟨?_, ?_, ?_, ?_⟩
  · rw [mergeFold_modified]
    simp only [emptyChangeSet, List.nil_append]
    exact count_map_fst_filter_eq_one hnd h rfl
  · rw [mergeFold_added]
    simp only [emptyChangeSet, List.nil_append]
    exact not_mem_map_fst_filter hnd h rfl
  · rw [mergeFold_deleted]
    simp only [emptyChangeSet, List.nil_append]
    exact not_mem_map_fst_filter hnd h rfl
  · rw [mergeFold_conflicts]
    simp [emptyChangeSet]

/-- Witness for claim C6 at a concrete input: the line `MM a.py` yields the
entry `(a.py, MM)` and `a.py` is counted once in `modified` and nowhere else. -/
theorem claim_C6_witness :
    (("a.py", "MM") ∈ parseGitStatus ["MM a.py"])
    ∧ ((syncManifest exampleManifest { stdoutLines := ["MM a.py"], returncode := 0 } "merge").1.changes.modified.count "a.py" = 1
       ∧ "a.py" ∉ (syncManifest exampleManifest { stdoutLines := ["MM a.py"], returncode := 0 } "merge").1.changes.added
       ∧ "a.py" ∉ (syncManifest exampleManifest { stdoutLines := ["MM a.py"], returncode := 0 } "merge").1.changes.deleted
       ∧ "a.py" ∉ (syncManifest exampleManifest { stdoutLines := ["MM a.py"], returncode := 0 } "merge").1.changes.conflicts) :=
  ⟨by decide,
   claim_C6_MM_modified_once exampleManifest { stdoutLines := ["MM a.py"], returncode := 0 }
     "a.py" (by decide)⟩

/-- A status code recognized by no arm of the `merge` chain is routed to none
of the three code predicates. -/
theorem unknown_code_not_merge_classified (c : String)
    (hM : pyInChar 'M' c = false) (hA : pyInChar 'A' c = false)
    (hD : pyInChar 'D' c = false) (hq : c ≠ "??") :
    mergeModifiedCode c = false ∧ mergeAddedCode c = false ∧ mergeDeletedCode c = false := by
  unfold mergeModifiedCode mergeAddedCode mergeDeletedCode
  rw [hM, hA, hD]
  simp [hq]

/-- Claim C4, counterexample: the status line `ZZ a.py` carries the
unrecognized code `ZZ`, yet under `selective` its path lands in `modified`
(so it is not excluded from every sequence), and the result — shown in full —
carries no diagnostic of any kind. -/
theorem claim_C4_counterexample :
    (syncManifest exampleManifest { stdoutLines := ["ZZ a.py"], returncode := 0 } "selective").1
      = { status := "success", strategy := "selective",
          changes := { added := [], modified := ["a.py"], deleted := [], conflicts := [] } } := by
  decide

/-- Claim C4, amended: an unrecognized two-character code produces no
diagnostic (the result holds only `status`, `strategy` and `changes`); under
`merge` its path is silently excluded from every sequence, but under
`selective` the code is ignored entirely, so such a path ending in `.py` is
placed in `modified`. -/
theorem claim_C4_unknown_code (m : Manifest) (git : GitResult) (p c : String)
    (h : (p, c) ∈ parseGitStatus git.stdoutLines)
    (hM : pyInChar 'M' c = false) (hA : pyInChar 'A' c = false)
    (hD : pyInChar 'D' c = false) (hq : c ≠ "??") :
    (p ∉ (syncManifest m git "merge").1.changes.added
     ∧ p ∉ (syncManifest m git "merge").1.changes.modified
     ∧ p ∉ (syncManifest m git "merge").1.changes.deleted
     ∧ p ∉ (syncManifest m git "merge").1.changes.conflicts)
    ∧ (pyEndsWith p ".py" = true
        → p ∈ (syncManifest m git "selective").1.changes.modified) := by
  have hnd := parseGitStatus_nodup_keys git.stdoutLines
  obtain ⟨hcM, hcA, hcD⟩ := unknown_code_not_merge_classified c hM hA hD hq
  constructor
  · simp only [syncManifest_changes, classifyChanges_merge]
    refine ⟨?_, ?_, ?_, ?_⟩
    · rw [mergeFold_added]
      simp only [emptyChangeSet, List.nil_append]
      exact not_mem_map_fst_filter hnd h hcA
    · rw [mergeFold_modified]
      simp only [emptyChangeSet, List.nil_append]
      exact not_mem_map_fst_filter hnd h hcM
    · rw [mergeFold_deleted]
      simp only [emptyChangeSet, List.nil_append]
      exact not_mem_map_fst_filter hnd h hcD
    · rw [mergeFold_conflicts]
      simp [emptyChangeSet]
  · intro hpy
    simp only [syncManifest_changes, classifyChanges_selective]
    rw [selectiveFold_modified]
    simp only [emptyChangeSet, List.nil_append]
    exact mem_map_fst_filter.mpr ⟨(p, c), h, hpy, rfl⟩

/-- Witness for claim C4 at a concrete input: the line `ZZ b.py`. -/
theorem claim_C4_witness :
    (("b.py", "ZZ") ∈ parseGitStatus ["ZZ b.py"])
    ∧ pyInChar 'M' "ZZ" = false ∧ pyInChar 'A' "ZZ" = false
    ∧ pyInChar 'D' "ZZ" = false ∧ "ZZ" ≠ "??"
    ∧ (("b.py" ∉ (syncManifest exampleManifest { stdoutLines := ["ZZ b.py"], returncode := 0 } "merge").1.changes.added
        ∧ "b.py" ∉ (syncManifest exampleManifest { stdoutLines := ["ZZ b.py"], returncode := 0 } "merge").1.changes.modified
        ∧ "b.py" ∉ (syncManifest exampleManifest { stdoutLines := ["ZZ b.py"], returncode := 0 } "merge").1.changes.deleted
        ∧ "b.py" ∉ (syncManifest exampleManifest { stdoutLines := ["ZZ b.py"], returncode := 0 } "merge").1.changes.conflicts)
       ∧ (pyEndsWith "b.py" ".py" = true
           → "b.py" ∈ (syncManifest exampleManifest { stdoutLines := ["ZZ b.py"], returncode := 0 } "selective").1.changes.modified)) :=
  ⟨by decide, by decide, by decide, by decide, by decide,
   claim_C4_unknown_code exampleManifest { stdoutLines := ["ZZ b.py"], returncode := 0 }
     "b.py" "ZZ" (by decide) (by decide) (by decide) (by decide) (by decide)⟩

/-- Claim C2: for every manifest (a Python dict, hence without duplicate file
keys), status input and strategy, no path occurs in more than one of the four
sequences of the resulting ChangeSet. -/
theorem claim_C2_disjoint_sequences (m : Manifest) (git : GitResult)
    (strategy p : String) (hm : (m.files.map Prod.fst).Nodup) :
    ¬(p ∈ (syncManifest m git strategy).1.changes.added
        ∧ p ∈ (syncManifest m git strategy).1.changes.modified)
    ∧ ¬(p ∈ (syncManifest m git strategy).1.changes.added
        ∧ p ∈ (syncManifest m git strategy).1.changes.deleted)
    ∧ ¬(p ∈ (syncManifest m git strategy).1.changes.added
        ∧ p ∈ (syncManifest m git strategy).1.changes.conflicts)
    ∧ ¬(p ∈ (syncManifest m git strategy).1.changes.modified
        ∧ p ∈ (syncManifest m git strategy).1.changes.deleted)
    ∧ ¬(p ∈ (syncManifest m git strategy).1.changes.modified
        ∧ p ∈ (syncManifest m git strategy).1.changes.conflicts)
    ∧ ¬(p ∈ (syncManifest m git strategy).1.changes.deleted
        ∧ p ∈ (syncManifest m git strategy).1.changes.conflicts) := by
  have hnd := parseGitStatus_nodup_keys git.stdoutLines
  simp only [syncManifest_changes]
  by_cases h1 : strategy = "merge"
  · subst h1
    simp only [classifyChanges_merge, mergeFold_added, mergeFold_modified,
      mergeFold_deleted, mergeFold_conflicts, emptyChangeSet, List.nil_append]
    refine ⟨?_, ?_, by simp, ?_, by simp, by simp⟩
    · rintro ⟨hA, hM⟩
      exact disjoint_map_fst_filter hnd
        (fun kv hkv => mergeModified_not_added kv.2 hkv) hM hA
    · rintro ⟨hA, hD⟩
      exact disjoint_map_fst_filter hnd
        (fun kv hkv => mergeAdded_not_deleted kv.2 hkv) hA hD
    · rintro ⟨hM, hD⟩
      exact disjoint_map_fst_filter hnd
        (fun kv hkv => mergeModified_not_deleted kv.2 hkv) hM hD
  · by_cases h2 : strategy = "overwrite"
    · subst h2
      simp only [classifyChanges_overwrite, overwriteFold_added, overwriteFold_modified,
        overwriteFold_deleted, overwriteFold_conflicts, emptyChangeSet, List.nil_append]
      refine ⟨?_, by simp, by simp, by simp, by simp, by simp⟩
      rintro ⟨hA, hM⟩
      refine disjoint_map_fst_filter hm (fun e he => ?_) hM hA
      simp [he]
    · by_cases h3 : strategy = "selective"
      · subst h3
        simp only [classifyChanges_selective, selectiveFold_added, selectiveFold_modified,
          selectiveFold_deleted, selectiveFold_conflicts, emptyChangeSet, List.nil_append]
        simp
      · rw [classifyChanges_unknown m _ strategy h1 h2 h3]
        simp [emptyChangeSet]

/-- Witness for claim C2 at a concrete input: the example manifest (distinct
file keys) with one `MM` line under `merge`. -/
theorem claim_C2_witness :
    (exampleManifest.files.map Prod.fst).Nodup
    ∧ (¬("a.py" ∈ (syncManifest exampleManifest { stdoutLines := ["MM a.py"], returncode := 0 } "merge").1.changes.added
          ∧ "a.py" ∈ (syncManifest exampleManifest { stdoutLines := ["MM a.py"], returncode := 0 } "merge").1.changes.modified)
       ∧ ¬("a.py" ∈ (syncManifest exampleManifest { stdoutLines := ["MM a.py"], returncode := 0 } "merge").1.changes.added
          ∧ "a.py" ∈ (syncManifest exampleManifest { stdoutLines := ["MM a.py"], returncode := 0 } "merge").1.changes.deleted)
       ∧ ¬("a.py" ∈ (syncManifest exampleManifest { stdoutLines := ["MM a.py"], returncode := 0 } "merge").1.changes.added
          ∧ "a.py" ∈ (syncManifest exampleManifest { stdoutLines := ["MM a.py"], returncode := 0 } "merge").1.changes.conflicts)
       ∧ ¬("a.py" ∈ (syncManifest exampleManifest { stdoutLines := ["MM a.py"], returncode := 0 } "merge").1.changes.modified
          ∧ "a.py" ∈ (syncManifest exampleManifest { stdoutLines := ["MM a.py"], returncode := 0 } "merge").1.changes.deleted)
       ∧ ¬("a.py" ∈ (syncManifest exampleManifest { stdoutLines := ["MM a.py"], returncode := 0 } "merge").1.changes.modified
          ∧ "a.py" ∈ (syncManifest exampleManifest { stdoutLines := ["MM a.py"], returncode := 0 } "merge").1.changes.conflicts)
       ∧ ¬("a.py" ∈ (syncManifest exampleManifest { stdoutLines := ["MM a.py"], returncode := 0 } "merge").1.changes.deleted
          ∧ "a.py" ∈ (syncManifest exampleManifest { stdoutLines := ["MM a.py"], returncode := 0 } "merge").1.changes.conflicts)) :=
  ⟨by decide,
   claim_C2_disjoint_sequences exampleManifest { stdoutLines := ["MM a.py"], returncode := 0 }
     "merge" "a.py" (by decide)⟩
